import Mathlib

/-!
Shallow embedding of the reelname matching-and-transfer engine.

The definitions below are translated from the TypeScript sources:
  * the confidence matcher (`titleSimilarity`, `calculateConfidence`,
    `matchGroup`, `matchAllGroups`) from the matcher module,
  * the TMDB client wrappers (`searchMovies`, `searchTV`, `searchMulti`,
    `getEpisode`) and its sliding-log rate limiter (`rateLimitedFetch`),
  * the transfer queue (`queueTransfers` / `processQueue` /
    `processTransfer`) and the local copy routine (`transferLocal`)
    from the transfer module.

JavaScript numbers are modelled as exact rationals (ℚ); machine floats are
idealized as exact arithmetic.  JavaScript truthiness on strings ("" is
falsy) and on numbers (0 and NaN are falsy) is modelled explicitly where the
source relies on it.  Database updates are modelled by explicit state
passing; async throwing functions return `Except String`.
-/

namespace Reelname

/-! ### JavaScript helpers -/

/-- Model of the JavaScript expression `a || b` for an optional string `a`:
`undefined`/`null` and the empty string are falsy and fall through to `b`. -/
def orStr (a : Option String) (b : String) : String :=
  match a with
  | none => b
  | some s => if s = "" then b else s

/-- Model of JavaScript truthiness for an optional integer (`null`/`undefined`
and `0` are falsy). -/
def truthyInt : Option ℤ → Bool
  | none => false
  | some y => y ≠ 0

/-- Model of JavaScript truthiness for an optional string (`null`/`undefined`
and the empty string are falsy). -/
def truthyStr : Option String → Bool
  | none => false
  | some s => s ≠ ""

/-- Value of a string of decimal digits. -/
def digitsVal (t : List Char) : ℕ :=
  t.foldl (fun n c => 10 * n + (c.toNat - ('0').toNat)) 0

/-- Model of `parseInt(s.slice(0, 4), 10)` as used on TMDB date strings
("2020-05-01" ↦ 2020): the leading digit run of the first four characters;
`none` models the `NaN` result on an empty digit run. -/
def parseYear4 (s : String) : Option ℤ :=
  let t := (s.toList.take 4).takeWhile Char.isDigit
  if t = [] then none else some (digitsVal t)

/-! ### Levenshtein distance and title similarity

The source builds the full DP matrix `matrix[i][j]` over prefixes with
`matrix[i][j] = min(matrix[i-1][j]+1, matrix[i][j-1]+1, matrix[i-1][j-1]+cost)`
and unit insert/delete/substitute costs; `levenshtein` below is exactly that
recurrence in structural form (the matrix entry at `(i, j)` is the distance
between the length-`i` and length-`j` prefixes). -/

/-- Unit-cost Levenshtein distance between two character lists. -/
def levenshtein : List Char → List Char → ℕ
  | [], ys => ys.length
  | x :: xs, [] => (x :: xs).length
  | x :: xs, y :: ys =>
    min (min (levenshtein xs (y :: ys) + 1) (levenshtein (x :: xs) ys + 1))
      (levenshtein xs ys + (if x = y then 0 else 1))

/-- Model of `s.toLowerCase()` on the character list. -/
def jsToLower (s : List Char) : List Char := s.map Char.toLower

/-- Model of `s.trim()`: strip leading and trailing whitespace. -/
def jsTrim (s : List Char) : List Char :=
  ((s.dropWhile Char.isWhitespace).reverse.dropWhile Char.isWhitespace).reverse

/-- `s.toLowerCase().trim()` as a character list. -/
def jsNorm (s : String) : List Char := jsTrim (jsToLower s.toList)

/-- Normalized 0–1 title similarity, translated from `titleSimilarity`:
lowercase and trim both strings, return 1 on exact equality, 0 when either
is empty, otherwise `1 - levenshtein/maxLen`. -/
def titleSimilarity (a b : String) : ℚ :=
  let s1 := jsNorm a
  let s2 := jsNorm b
  if s1 = s2 then 1
  else if s1.length = 0 ∨ s2.length = 0 then 0
  else 1 - (levenshtein s1 s2 : ℚ) / (max s1.length s2.length : ℕ)

/-! ### TMDB search results and confidence scoring -/

/-- One raw TMDB search hit (the `TmdbSearchResult` interface).  Optional
fields model `undefined`; `popularity` and `vote_average` are JS numbers. -/
structure TmdbSearchResult where
  id : ℤ
  title : Option String := none
  name : Option String := none
  release_date : Option String := none
  first_air_date : Option String := none
  poster_path : Option String := none
  overview : Option String := none
  popularity : ℚ := 0
  media_type : Option String := none
  vote_average : ℚ := 0
  deriving DecidableEq

/-- `result.title || result.name || ""`. -/
def tmdbTitleOf (r : TmdbSearchResult) : String :=
  orStr r.title (orStr r.name "")

/-- `parseInt((result.release_date || result.first_air_date || "").slice(0, 4), 10)`,
with `none` for the `NaN` outcome. -/
def tmdbYearOf (r : TmdbSearchResult) : Option ℤ :=
  parseYear4 (orStr r.release_date (orStr r.first_air_date ""))

/-- `result.media_type || "unknown"`. -/
def tmdbTypeOf (r : TmdbSearchResult) : String :=
  orStr r.media_type "unknown"

/-- Confidence score, translated from `calculateConfidence`.  The year branch
follows the source's `if (parsedYear && !isNaN(tmdbYear))` / `else if
(!parsedYear)` tests, so JS truthiness of `parsedYear` is modelled by
`truthyInt`. -/
def calculateConfidence (parsedTitle : String) (parsedYear : Option ℤ)
    (parsedMediaType : String) (r : TmdbSearchResult) : ℚ :=
  let tmdbTitle := tmdbTitleOf r
  let tmdbYear := tmdbYearOf r
  let tmdbMediaType := tmdbTypeOf r
  let titleScore := titleSimilarity parsedTitle tmdbTitle * (6 / 10)
  let yearScore : ℚ :=
    if truthyInt parsedYear ∧ tmdbYear.isSome then
      match parsedYear, tmdbYear with
      | some py, some ty =>
        if (py - ty).natAbs = 0 then 25 / 100
        else if (py - ty).natAbs = 1 then 15 / 100
        else if (py - ty).natAbs = 2 then 5 / 100
        else 0
      | _, _ => 0
    else if ¬ truthyInt parsedYear then 10 / 100
    else 0
  let typeScore : ℚ :=
    if parsedMediaType ≠ "unknown" then
      if (parsedMediaType = "tv" ∧ tmdbMediaType = "tv") ∨
          (parsedMediaType = "movie" ∧ tmdbMediaType = "movie") then 10 / 100
      else 0
    else 5 / 100
  let popScore := min (r.popularity / 100) 1 * (5 / 100)
  titleScore + yearScore + typeScore + popScore

/-! ### Spec-side scoring components

The following three definitions are written from the specification's words
(not from the source); they exist only to be compared with
`calculateConfidence`. -/

/-- Spec wording: year proximity 0.25/0.15/0.05/0 for differences 0/1/2/>2
when both years are known, flat 0.10 when the parsed year is unknown, 0 when
the parsed year is known but the candidate year is unknown. -/
def specYearScore (parsedYear tmdbYear : Option ℤ) : ℚ :=
  match parsedYear with
  | none => 10 / 100
  | some py =>
    match tmdbYear with
    | none => 0
    | some ty =>
      if (py - ty).natAbs = 0 then 25 / 100
      else if (py - ty).natAbs = 1 then 15 / 100
      else if (py - ty).natAbs = 2 then 5 / 100
      else 0

/-- Spec wording: media-type consistency 0.10 on a known matching type, 0 on
a known mismatch, flat 0.05 when the parsed type is unknown. -/
def specTypeScore (parsedMediaType tmdbMediaType : String) : ℚ :=
  if parsedMediaType = "unknown" then 5 / 100
  else if parsedMediaType = tmdbMediaType then 10 / 100
  else 0

/-- Spec wording: popularity component `min(popularity/100, 1) × 0.05`. -/
def specPopScore (popularity : ℚ) : ℚ :=
  min (popularity / 100) 1 * (5 / 100)

/-! ### Data model

The drizzle schema itself is not among the provided sources; the record
shapes below carry exactly the fields the matcher and transfer code reads
and writes at its use sites. -/

/-- A scanned folder (row of `groups`), restricted to the fields the matcher
touches. -/
structure Group where
  parsedTitle : Option String := none
  parsedYear : Option ℤ := none
  mediaType : String := "unknown"
  status : String := "scanned"
  tmdbId : Option ℤ := none
  tmdbTitle : Option String := none
  tmdbYear : Option ℤ := none
  tmdbPosterPath : Option String := none
  matchConfidence : Option ℚ := none
  deriving DecidableEq

/-- A media file (row of `jobs`), restricted to the fields the matcher
touches. -/
structure Job where
  status : String := "scanned"
  fileCategory : String := "movie"
  parsedSeason : Option ℤ := none
  parsedEpisode : Option ℤ := none
  tmdbId : Option ℤ := none
  tmdbTitle : Option String := none
  tmdbYear : Option ℤ := none
  tmdbPosterPath : Option String := none
  tmdbEpisodeTitle : Option String := none
  matchConfidence : Option ℚ := none
  deriving DecidableEq

/-- A row inserted into `matchCandidates` by `matchGroup`. -/
structure NewMatchCandidate where
  tmdbId : ℤ
  mediaType : String
  title : String
  year : Option ℤ
  posterPath : Option String
  overview : Option String
  confidence : ℚ
  deriving DecidableEq

/-- The external TMDB service together with the stored API key: the oracle
functions give the raw JSON results the service would return for a query
(before the client's own mapping/filtering), and the episode-name oracle
gives the episode lookup outcome (`none` covering both not-found and
non-2xx responses, which `getEpisode` maps to `null`). -/
structure Catalog where
  apiKey : String
  multiResults : String → Option ℤ → List TmdbSearchResult
  movieResults : String → Option ℤ → List TmdbSearchResult
  tvResults : String → Option ℤ → List TmdbSearchResult
  episodeName : ℤ → ℤ → ℤ → Option String

/-! ### TMDB client wrappers (from the tmdb module) -/

/-- `searchMulti`: throws when the API key is missing, otherwise filters the
raw results to movie/tv entries. -/
def searchMulti (cat : Catalog) (query : String) (year : Option ℤ) :
    Except String (List TmdbSearchResult) :=
  if cat.apiKey = "" then Except.error "TMDB API key not configured"
  else Except.ok ((cat.multiResults query year).filter
    (fun r => r.media_type = some "movie" ∨ r.media_type = some "tv"))

/-- `searchMovies`: throws when the API key is missing, otherwise stamps
`media_type: "movie"` onto every result. -/
def searchMovies (cat : Catalog) (query : String) (year : Option ℤ) :
    Except String (List TmdbSearchResult) :=
  if cat.apiKey = "" then Except.error "TMDB API key not configured"
  else Except.ok ((cat.movieResults query year).map
    (fun r => {r with media_type := some "movie"}))

/-- `searchTV`: throws when the API key is missing, otherwise stamps
`media_type: "tv"` onto every result. -/
def searchTV (cat : Catalog) (query : String) (year : Option ℤ) :
    Except String (List TmdbSearchResult) :=
  if cat.apiKey = "" then Except.error "TMDB API key not configured"
  else Except.ok ((cat.tvResults query year).map
    (fun r => {r with media_type := some "tv"}))

/-- `getEpisode`: returns `null` (never throws) when the API key is missing,
otherwise the episode name or `null`. -/
def getEpisode (cat : Catalog) (tvId season episode : ℤ) : Option String :=
  if cat.apiKey = "" then none else cat.episodeName tvId season episode

/-! ### matchGroup -/

instance : Inhabited TmdbSearchResult :=
  ⟨{ id := 0 }⟩

/-- The catalog search dispatch of `matchGroup` step 2 (by
`group.mediaType`). -/
def dispatchSearch (cat : Catalog) (g : Group) (t : String) :
    Except String (List TmdbSearchResult) :=
  if g.mediaType = "tv" then searchTV cat t g.parsedYear
  else if g.mediaType = "movie" then searchMovies cat t g.parsedYear
  else searchMulti cat t g.parsedYear

/-- `results.slice(0, 10)` scored by `calculateConfidence` and sorted
descending by confidence (`scored.sort((a, b) => b.confidence -
a.confidence)`, a stable sort). -/
def scoreResults (g : Group) (t : String) (results : List TmdbSearchResult) :
    List (TmdbSearchResult × ℚ) :=
  ((results.take 10).map
    (fun r => (r, calculateConfidence t g.parsedYear g.mediaType r))).mergeSort
    (fun a b => decide (b.2 ≤ a.2))

/-- `const gap = second ? top.confidence - second.confidence : 1` over the
sorted scored list (whose head is `top`). -/
def gapOf (scored : List (TmdbSearchResult × ℚ)) : ℚ :=
  match scored.get? 1 with
  | some s => scored.headI.2 - s.2
  | none => 1

/-- The candidate row built for one scored result. -/
def mkCandidate (r : TmdbSearchResult) (confidence : ℚ) : NewMatchCandidate where
  tmdbId := r.id
  mediaType := orStr r.media_type "movie"
  title := tmdbTitleOf r
  year := tmdbYearOf r
  posterPath := r.poster_path
  overview :=
    match r.overview with
    | none => none
    | some o => if o.take 500 = "" then none else some (o.take 500)
  confidence := confidence

/-- A job is skipped by the episode-title backfill when it is an extra or
lacks a parsed season or episode. -/
def eligibleForEpisode (j : Job) : Bool :=
  ¬ (j.fileCategory = "extra" ∨ j.parsedSeason = none ∨ j.parsedEpisode = none)

/-- The per-job body of `fetchEpisodeTitles`: skip extras and jobs without a
parsed season/episode, otherwise look the episode up and store its name (a
not-found lookup leaves the job unchanged — not an error). -/
def backfillEpisode (cat : Catalog) (tmdbId : ℤ) (j : Job) : Job :=
  if eligibleForEpisode j then
    match j.parsedSeason, j.parsedEpisode with
    | some s, some e =>
      match getEpisode cat tmdbId s e with
      | some n => {j with tmdbEpisodeTitle := some n}
      | none => j
    | _, _ => j
  else j

/-- `fetchEpisodeTitles` applied to the child jobs, together with the number
of catalog requests it issues (`getEpisode` touches the network only when an
API key is present). -/
def fetchEpisodeTitles (cat : Catalog) (tmdbId : ℤ) (js : List Job) :
    List Job × ℕ :=
  (js.map (backfillEpisode cat tmdbId),
   if cat.apiKey = "" then 0 else (js.filter eligibleForEpisode).length)

/-- The `groups` update object of the auto-match accept branch: status
matched, the winning candidate's catalog id/title/year/poster and
confidence, and `media_type || group.mediaType`. -/
def matchedGroup (g : Group) (top : TmdbSearchResult × ℚ) : Group :=
  {g with status := "matched", tmdbId := some top.1.id,
          tmdbTitle := some (tmdbTitleOf top.1),
          tmdbYear := tmdbYearOf top.1,
          tmdbPosterPath := top.1.poster_path,
          matchConfidence := some top.2,
          mediaType := orStr top.1.media_type g.mediaType}

/-- The `jobs` update object of the accept branch, applied to every child:
status matched plus the same catalog id/title/year/poster/confidence. -/
def matchedJob (top : TmdbSearchResult × ℚ) (j : Job) : Job :=
  {j with status := "matched", tmdbId := some top.1.id,
          tmdbTitle := some (tmdbTitleOf top.1),
          tmdbYear := tmdbYearOf top.1,
          tmdbPosterPath := top.1.poster_path,
          matchConfidence := some top.2}

/-- The `groups` update object of the reject branch: status ambiguous with
the top candidate's confidence. -/
def ambiguousScoredGroup (g : Group) (c : ℚ) : Group :=
  {g with status := "ambiguous", matchConfidence := some c}

/-- Result of one `matchGroup` run: the updated group row, the updated child
job rows, the replaced candidate set (`none` when the candidate table was
not touched), and the number of catalog requests issued. -/
structure MatchOutcome where
  group : Group
  jobs : List Job
  candidates : Option (List NewMatchCandidate)
  catalogCalls : ℕ
  deriving DecidableEq

/-- Translation of `matchGroup`.  Database writes become functional record
updates; the auto-match threshold (settings lookup with default 0.85) is the
`threshold` parameter; a thrown search error propagates as `Except.error`.
The source guards with `if (!group.parsedTitle)` — JavaScript falsiness — so
a null *or empty-string* parsed title is set ambiguous without searching
(`truthyStr`); on the truthy path `group.parsedTitle!` is the title. -/
def matchGroup (threshold : ℚ) (cat : Catalog) (g : Group)
    (children : List Job) : Except String MatchOutcome :=
  if truthyStr g.parsedTitle then
    let t := g.parsedTitle.getD ""
    match dispatchSearch cat g t with
    | Except.error e => Except.error e
    | Except.ok results =>
      if results = [] then
        Except.ok ⟨{g with status := "ambiguous"}, children, none, 1⟩
      else
        let scored := scoreResults g t results
        let cands := scored.map (fun p => mkCandidate p.1 p.2)
        let top := scored.headI
        let gap : ℚ := gapOf scored
        if threshold ≤ top.2 ∧ (15 : ℚ) / 100 ≤ gap then
          let g' := matchedGroup g top
          let js := children.map (matchedJob top)
          if top.1.media_type = some "tv" then
            let fetched := fetchEpisodeTitles cat top.1.id js
            Except.ok ⟨g', fetched.1, some cands, 1 + fetched.2⟩
          else
            Except.ok ⟨g', js, some cands, 1⟩
        else
          Except.ok ⟨ambiguousScoredGroup g top.2, children, some cands, 1⟩
  else
    Except.ok ⟨{g with status := "ambiguous"}, children, none, 0⟩

/-- Aggregate counts returned by `matchAllGroups`. -/
structure MatchCounts where
  matched : ℕ
  ambiguous : ℕ
  deriving DecidableEq

/-- The loop body of `matchAllGroups`: run `matchGroup` on one group, read
the updated status back, and count it as matched or ambiguous; a thrown
per-group error is caught (logged) and counted as ambiguous. -/
def matchTally (threshold : ℚ) (cat : Catalog) (acc : MatchCounts)
    (p : Group × List Job) : MatchCounts :=
  match matchGroup threshold cat p.1 p.2 with
  | Except.error _ => {acc with ambiguous := acc.ambiguous + 1}
  | Except.ok out =>
    if out.group.status = "matched" then
      {acc with matched := acc.matched + 1}
    else {acc with ambiguous := acc.ambiguous + 1}

/-- Translation of `matchAllGroups`: iterate the groups whose status is
`scanned` (with their child jobs), run `matchGroup` on each, count matched
vs. ambiguous; a per-group exception is caught and counted as ambiguous, so
the fold itself never fails. -/
def matchAllGroups (threshold : ℚ) (cat : Catalog)
    (gs : List (Group × List Job)) : MatchCounts :=
  (gs.filter (fun p => p.1.status = "scanned")).foldl
    (matchTally threshold cat) ⟨0, 0⟩

/-! ### Transfer: per-job progress records (from the transfer module) -/

/-- The transfer-related fields of a `jobs` row written by
`updateJobProgress` and the stream handlers.  `destinationPathSet` records
the extra write of `destinationId`/`destinationPath` performed by the finish
handler. -/
structure JobRec where
  status : String := "matched"
  transferProgress : Option ℚ := none
  transferError : Option String := none
  destinationPathSet : Bool := false
  deriving DecidableEq

/-- Translation of `updateJobProgress`: status is `failed` when an error is
given, `completed` when progress ≥ 1, else `transferring`; progress and
error are stored as given. -/
def updateJobProgress (rec : JobRec) (progress : ℚ)
    (error : Option String) : JobRec :=
  {rec with
    status :=
      if truthyStr error then "failed"
      else if 1 ≤ progress then "completed" else "transferring",
    transferProgress := some progress,
    transferError := error}

/-- How one streamed copy ends: normal completion, or an error raised at the
read or the write end after the delivered chunks. -/
inductive StreamOutcome where
  | success : StreamOutcome
  | readErr (msg : String) : StreamOutcome
  | writeErr (msg : String) : StreamOutcome
  deriving DecidableEq

deriving instance DecidableEq for Except

/-- Result of one local transfer: the final job record, the destination file
content, the offset the read stream was opened at (`none`: no read stream
was created), the write-stream flags (`"a"` append / `"w"` truncate), the
number of bytes read from the source, and normal vs. error termination. -/
structure LocalTransferResult where
  record : JobRec
  dest : List ℕ
  readStart : Option ℕ
  writeFlags : Option String
  bytesRead : ℕ
  result : Except String Unit
  deriving DecidableEq

/-- The streaming part of `transferLocal`: data chunks update the progress
one by one (`progress = min(transferred/totalSize, 1)`); on `finish` the
progress is set to 1 and the destination path persisted; a stream error at
either end records `transferred/totalSize` with the error message and
rejects the promise. -/
def runStream (rec : JobRec) (totalSize : ℕ) (source : List ℕ)
    (base : List ℕ) (start : ℕ) (chunks : List ℕ) (ev : StreamOutcome)
    (flags : String) : LocalTransferResult :=
  let stepped := chunks.foldl
    (fun (acc : JobRec × ℕ) c =>
      let tr := acc.2 + c
      (updateJobProgress acc.1 (min ((tr : ℚ) / (totalSize : ℚ)) 1) none, tr))
    (rec, start)
  match ev with
  | StreamOutcome.success =>
    { record := {updateJobProgress stepped.1 1 none with destinationPathSet := true},
      dest := base ++ source.drop start,
      readStart := some start,
      writeFlags := some flags,
      bytesRead := (source.drop start).length,
      result := Except.ok () }
  | StreamOutcome.readErr msg =>
    { record := updateJobProgress stepped.1 ((stepped.2 : ℚ) / (totalSize : ℚ)) (some msg),
      dest := base ++ (source.drop start).take (stepped.2 - start),
      readStart := some start,
      writeFlags := some flags,
      bytesRead := stepped.2 - start,
      result := Except.error msg }
  | StreamOutcome.writeErr msg =>
    { record := updateJobProgress stepped.1 ((stepped.2 : ℚ) / (totalSize : ℚ)) (some msg),
      dest := base ++ (source.drop start).take (stepped.2 - start),
      readStart := some start,
      writeFlags := some flags,
      bytesRead := stepped.2 - start,
      result := Except.error msg }

/-- Translation of `transferLocal` for one job: `fileSize` is the job's
recorded size (`totalSize` in the source), `source` the source file's bytes,
`destExisting` the destination file's content when one already exists.  An
existing file of exactly `totalSize` bytes is reported complete with no read
stream; a smaller one sets the resume offset and append flags; otherwise the
copy restarts at offset 0 with truncating flags. -/
def transferLocal (rec : JobRec) (fileSize : ℕ) (source : List ℕ)
    (destExisting : Option (List ℕ)) (chunks : List ℕ)
    (ev : StreamOutcome) : LocalTransferResult :=
  let totalSize := fileSize
  match destExisting with
  | some d =>
    if d.length = totalSize then
      { record := updateJobProgress rec 1 none,
        dest := d,
        readStart := none,
        writeFlags := none,
        bytesRead := 0,
        result := Except.ok () }
    else
      let start := if d.length < totalSize then d.length else 0
      runStream rec totalSize source (if 0 < start then d else []) start
        chunks ev (if 0 < start then "a" else "w")
  | none => runStream rec totalSize source [] 0 chunks ev "w"

/-- Translation of the local-destination path of `processTransfer` (job and
destination both found): mark the job transferring with progress 0 and a
cleared error, run `transferLocal`, and on a rejected promise let the
`catch` write `updateJobProgress(jobId, 0, message)`. -/
def processTransfer (rec : JobRec) (fileSize : ℕ) (source : List ℕ)
    (destExisting : Option (List ℕ)) (chunks : List ℕ)
    (ev : StreamOutcome) : LocalTransferResult :=
  let rec1 : JobRec :=
    {rec with status := "transferring", transferProgress := some 0,
              transferError := none}
  let res := transferLocal rec1 fileSize source destExisting chunks ev
  match res.result with
  | Except.ok _ => res
  | Except.error msg => {res with record := updateJobProgress res.record 0 (some msg)}

/-! ### Transfer queue (from the transfer module)

The module-level mutable state (`activeTransfers`, `transferQueue`) and the
set of in-flight `processTransfer` invocations become an explicit state; the
`started`, `finished` and `enqueued` fields are history variables recording
admission order, terminal jobs and all requests.  One `finish` transition
models a `processTransfer` reaching its trailing `activeTransfers--;
processQueue()` (success or failure alike). -/

/-- `MAX_CONCURRENT` from the transfer module. -/
def MAX_CONCURRENT : ℕ := 2

/-- State of the transfer queue machinery. -/
structure QState where
  running : List ℕ
  queue : List ℕ
  started : List ℕ
  finished : List ℕ
  enqueued : List ℕ
  deriving DecidableEq

/-- The `while (activeTransfers < MAX_CONCURRENT && transferQueue.length > 0)`
loop of `processQueue`: shift the queue head and start it (it joins the
running set and the admission history). -/
def drain : List ℕ → List ℕ → List ℕ → List ℕ × List ℕ × List ℕ
  | running, [], started => (running, [], started)
  | running, j :: rest, started =>
    if running.length < MAX_CONCURRENT then
      drain (running ++ [j]) rest (started ++ [j])
    else (running, j :: rest, started)

/-- `processQueue` applied to a state. -/
def processQueue (s : QState) : QState :=
  let d := drain s.running s.queue s.started
  {s with running := d.1, queue := d.2.1, started := d.2.2}

/-- `queueTransfers`: push every job id, then drain. -/
def queueTransfers (s : QState) (jobIds : List ℕ) : QState :=
  processQueue
    {s with queue := s.queue ++ jobIds, enqueued := s.enqueued ++ jobIds}

/-- Completion or failure of the active transfer `j`: `activeTransfers--`
followed by `processQueue()`. -/
def finishTransfer (s : QState) (j : ℕ) : QState :=
  processQueue
    {s with running := s.running.erase j, finished := s.finished ++ [j]}

/-- The transitions of the transfer queue: an external `queueTransfers` call,
or an active transfer ending (in success or failure). -/
inductive QStep : QState → QState → Prop
  | enqueue (jobIds : List ℕ) (s : QState) : QStep s (queueTransfers s jobIds)
  | finish (j : ℕ) (s : QState) (h : j ∈ s.running) :
      QStep s (finishTransfer s j)

/-- Fresh module state: no active transfers, empty queue. -/
def initQState : QState := ⟨[], [], [], [], []⟩

/-- States reachable from the fresh module state. -/
inductive QReachable : QState → Prop
  | init : QReachable initQState
  | step {s t : QState} : QReachable s → QStep s t → QReachable t

/-- Runs consisting only of transfer completions (no new `queueTransfers`
call). -/
inductive FinishRun : QState → QState → Prop
  | refl (s : QState) : FinishRun s s
  | tail {s t : QState} (j : ℕ) : FinishRun s t → j ∈ t.running →
      FinishRun s (finishTransfer t j)

/-- The inductive invariant of the queue machinery: the concurrency cap is
respected; the queue is only nonempty while the workers are saturated;
admission order is enqueue order (`enqueued = started ++ queue`); and the
admitted jobs are exactly the finished plus the running ones. -/
def QInv (s : QState) : Prop :=
  s.running.length ≤ MAX_CONCURRENT ∧
  (s.queue ≠ [] → s.running.length = MAX_CONCURRENT) ∧
  s.enqueued = s.started ++ s.queue ∧
  (s.started : Multiset ℕ) = (s.finished : Multiset ℕ) + (s.running : Multiset ℕ)

/-! ### Sliding-log rate limiter (from the tmdb module)

`rateLimitedFetch` is split at its `await`: the synchronous
prune–check–(push | schedule-wait) prefix is one atomic step (`rlArrive`),
and a suspended caller resuming after its `setTimeout` and pushing the
current time is another (`rlResume`).  Timers are idealized as exact, so a
caller that computed `waitTime` at time `now` resumes and records at
`now + waitTime`.  Other callers may run between the two steps — exactly the
interleaving the JS event loop allows. -/

/-- `RATE_LIMIT` from the tmdb module (stay slightly under TMDB's 40). -/
def RATE_LIMIT : ℕ := 35

/-- `RATE_WINDOW` from the tmdb module, in milliseconds. -/
def RATE_WINDOW : ℤ := 10000

/-- `requestTimestamps.filter((t) => now - t < RATE_WINDOW)`. -/
def pruneLog (now : ℤ) (log : List ℤ) : List ℤ :=
  log.filter (fun t => now - t < RATE_WINDOW)

/-- Rate limiter state: the timestamp log plus the resume times of callers
suspended in `setTimeout`, in scheduling order. -/
structure RLState where
  log : List ℤ
  pending : List ℤ
  deriving DecidableEq

/-- A caller entering `rateLimitedFetch` at time `now`: prune the log; if
the pruned log still holds at least `RATE_LIMIT` entries, compute
`waitTime = RATE_WINDOW - (now - requestTimestamps[0])` and suspend until
`now + waitTime`; otherwise record `now` immediately. -/
def rlArrive (s : RLState) (now : ℤ) : RLState :=
  let log := pruneLog now s.log
  if RATE_LIMIT ≤ log.length then
    {log := log, pending := s.pending ++ [now + (RATE_WINDOW - (now - log.headI))]}
  else {log := log ++ [now], pending := s.pending}

/-- The earliest suspended caller waking up: it records the current time
without re-checking the quota (the source pushes right after the `await`). -/
def rlResume (s : RLState) : RLState :=
  match s.pending with
  | [] => s
  | r :: rest => {log := s.log ++ [r], pending := rest}

/-- One scheduled event: a caller arriving at a given time, or the earliest
suspended caller resuming. -/
inductive RLEvent where
  | arrive (t : ℤ) : RLEvent
  | resumeNext : RLEvent
  deriving DecidableEq

/-- Run a schedule of events from a state. -/
def rlRun : List RLEvent → RLState → RLState
  | [], s => s
  | RLEvent.arrive t :: es, s => rlRun es (rlArrive s t)
  | RLEvent.resumeNext :: es, s => rlRun es (rlResume s)

/-- Number of recorded calls lying within the window ending at `now`. -/
def windowCount (now : ℤ) (log : List ℤ) : ℕ :=
  (pruneLog now log).length

/-- A concrete concurrent schedule: 35 callers arrive at time 0 and fill the
quota; 36 more arrive at times 1..36 and are all suspended until time 10000;
all 36 then resume and record. -/
def rlBurst : List RLEvent :=
  List.replicate 35 (RLEvent.arrive 0) ++
    (List.range 36).map (fun k => RLEvent.arrive ((k : ℤ) + 1)) ++
    List.replicate 36 RLEvent.resumeNext

/-! ### Concrete fixtures used by the theorems below -/

/-- A movie group parsed as "abc" (2020). -/
def bGroup : Group :=
  { parsedTitle := some "abc", parsedYear := some 2020, mediaType := "movie" }

/-- Candidate scoring 0.85 against `bGroup` after `searchMovies` stamps
`media_type: "movie"`: exact title (0.6), year off by one (0.15), matching
type (0.1), zero popularity. -/
def bTop : TmdbSearchResult :=
  { id := 1, title := some "abc", release_date := some "2021-01-01" }

/-- Candidate scoring 0.70: exact title (0.6), year off by 31 (0), matching
type (0.1), zero popularity. -/
def bSecondLow : TmdbSearchResult :=
  { id := 2, title := some "abc", release_date := some "1990-01-01" }

/-- Candidate scoring 0.71: exact title (0.6), year off by 31 (0), matching
type (0.1), popularity 20 (0.01). -/
def bSecondHigh : TmdbSearchResult :=
  { id := 3, title := some "abc", release_date := some "1990-01-01",
    popularity := 20 }

/-- `bTop` as stamped by `searchMovies` (`media_type: "movie"`). -/
def bTopM : TmdbSearchResult := {bTop with media_type := some "movie"}

/-- `bSecondLow` as stamped by `searchMovies`. -/
def bSecondLowM : TmdbSearchResult := {bSecondLow with media_type := some "movie"}

/-- `bSecondHigh` as stamped by `searchMovies`. -/
def bSecondHighM : TmdbSearchResult := {bSecondHigh with media_type := some "movie"}

/-- Catalog whose movie search returns the 0.85 / 0.70 pair. -/
def bCatalogA : Catalog :=
  ⟨"key", fun _ _ => [], fun _ _ => [bTop, bSecondLow], fun _ _ => [],
    fun _ _ _ => none⟩

/-- Catalog whose movie search returns the 0.85 / 0.71 pair. -/
def bCatalogB : Catalog :=
  ⟨"key", fun _ _ => [], fun _ _ => [bTop, bSecondHigh], fun _ _ => [],
    fun _ _ _ => none⟩

/-- A group with no parsed title but a stored confidence from an earlier
match attempt. -/
def c8Group : Group :=
  { parsedTitle := none, matchConfidence := some (9 / 10) }

/-- A perfectly healthy catalog (key present, results available). -/
def c8Catalog : Catalog :=
  ⟨"key", fun _ _ => [bTop], fun _ _ => [bTop], fun _ _ => [bTop],
    fun _ _ _ => none⟩

/-- A catalog with the API credential missing. -/
def c9Catalog : Catalog :=
  ⟨"", fun _ _ => [bTop], fun _ _ => [bTop], fun _ _ => [bTop],
    fun _ _ _ => none⟩

/-- A scanned movie group with a parsed title. -/
def c9GroupA : Group :=
  { parsedTitle := some "alpha", mediaType := "movie" }

/-- A scanned tv group with a parsed title. -/
def c9GroupB : Group :=
  { parsedTitle := some "beta", mediaType := "tv" }

/-- A concrete candidate for the confidence-score witness: year off by one,
matching media type, popularity 50. -/
def c2Result : TmdbSearchResult :=
  { id := 5, title := some "abc", release_date := some "2019-06-01",
    popularity := 50, media_type := some "movie" }

/-! ## Helper lemmas: Levenshtein distance and title similarity -/

theorem levenshtein_nil_left (ys : List Char) : levenshtein [] ys = ys.length := by
  cases ys <;> simp [levenshtein]

theorem levenshtein_nil_right (xs : List Char) : levenshtein xs [] = xs.length := by
  cases xs <;> simp [levenshtein]

theorem levenshtein_self (xs : List Char) : levenshtein xs xs = 0 := by
  induction xs with
  | nil => simp [levenshtein]
  | cons x xs ih => simp [levenshtein, ih]

theorem levenshtein_le_max (xs ys : List Char) :
    levenshtein xs ys ≤ max xs.length ys.length := by
  induction xs generalizing ys with
  | nil => simp [levenshtein_nil_left]
  | cons x xs ih =>
    cases ys with
    | nil => simp [levenshtein_nil_right]
    | cons y ys =>
      have h1 : levenshtein (x :: xs) (y :: ys) ≤ levenshtein xs ys + 1 := by
        simp only [levenshtein]
        have h := min_le_right
          (min (levenshtein xs (y :: ys) + 1) (levenshtein (x :: xs) ys + 1))
          (levenshtein xs ys + (if x = y then 0 else 1))
        have hcost : (if x = y then 0 else 1) ≤ 1 := by split <;> omega
        omega
      calc levenshtein (x :: xs) (y :: ys) ≤ levenshtein xs ys + 1 := h1
        _ ≤ max xs.length ys.length + 1 := by have := ih ys; omega
        _ = max (x :: xs).length (y :: ys).length := by
            simp [List.length_cons, Nat.succ_max_succ]

theorem titleSimilarity_nonneg (a b : String) : 0 ≤ titleSimilarity a b := by
  simp only [titleSimilarity]
  split
  · norm_num
  split
  · norm_num
  next h1 h2 =>
    push_neg at h2
    have hm : (0 : ℚ) < ((max (jsNorm a).length
        (jsNorm b).length : ℕ) : ℚ) := by
      have : 0 < max (jsNorm a).length
          (jsNorm b).length := by omega
      exact_mod_cast this
    have hle : ((levenshtein (jsNorm a) (jsNorm b) : ℕ) : ℚ) ≤
        ((max (jsNorm a).length (jsNorm b).length : ℕ) : ℚ) := by
      exact_mod_cast levenshtein_le_max (jsNorm a) (jsNorm b)
    have := (div_le_one hm).mpr hle
    linarith

theorem titleSimilarity_le_one (a b : String) : titleSimilarity a b ≤ 1 := by
  simp only [titleSimilarity]
  split
  · norm_num
  split
  · norm_num
  next h1 h2 =>
    have hnum : (0 : ℚ) ≤ ((levenshtein (jsNorm a)
        (jsNorm b) : ℕ) : ℚ) := by positivity
    have hden : (0 : ℚ) ≤ ((max (jsNorm a).length
        (jsNorm b).length : ℕ) : ℚ) := by positivity
    have := div_nonneg hnum hden
    linarith

/-! ## C3: the title-similarity formula -/

/-- C3 counterexample: when both inputs normalize to the empty string the
source's equality early-return fires and the similarity is 1, not the 0 the
claim demands for "either normalized string is empty". -/
theorem c3_counterexample :
    titleSimilarity "" "" = 1 ∧ (jsNorm "").length = 0 := by
  constructor
  · simp [titleSimilarity]
  · decide

/-- C3 (amended): with `s1`, `s2` the lowercased/trimmed inputs, the
similarity is 1 whenever `s1 = s2` (including both empty); it is 0 when the
strings differ and one of them is empty; and the formula
`1 − levenshtein(s1,s2)/max(len(s1),len(s2))` holds whenever at least one
normalized string is nonempty. -/
theorem c3_title_similarity_amended (a b : String) :
    (jsNorm a = jsNorm b →
      titleSimilarity a b = 1) ∧
    (jsNorm a ≠ jsNorm b →
      (jsNorm a).length = 0 ∨
        (jsNorm b).length = 0 →
      titleSimilarity a b = 0) ∧
    (0 < max (jsNorm a).length
        (jsNorm b).length →
      titleSimilarity a b =
        1 - (levenshtein (jsNorm a)
              (jsNorm b) : ℚ) /
          (max (jsNorm a).length
            (jsNorm b).length : ℕ)) := by
  have part2 : jsNorm a ≠ jsNorm b →
      (jsNorm a).length = 0 ∨ (jsNorm b).length = 0 →
      titleSimilarity a b = 0 := by
    intro h h0
    rcases h0 with h0 | h0
    · have hnil : jsNorm a = [] := List.length_eq_zero.mp h0
      have hb : ¬ jsNorm b = [] := fun hb => h (hnil.trans hb.symm)
      simp [titleSimilarity, h, hnil, hb]
    · have hnil : jsNorm b = [] := List.length_eq_zero.mp h0
      have ha : ¬ jsNorm a = [] := fun ha => h (ha.trans hnil.symm)
      simp [titleSimilarity, h, hnil, ha]
  refine ⟨fun h => by simp [titleSimilarity, h], part2, ?_⟩
  intro hmax
  by_cases h : jsNorm a = jsNorm b
  · have hs : titleSimilarity a b = 1 := by simp [titleSimilarity, h]
    rw [hs, h, levenshtein_self]
    simp
  · by_cases h0 : (jsNorm a).length = 0 ∨
        (jsNorm b).length = 0
    · rw [part2 h h0]
      rcases h0 with h0 | h0
      · have hnil : jsNorm a = [] := List.length_eq_zero.mp h0
        have hb : (jsNorm b).length ≠ 0 := by
          intro hb0
          exact h (hnil.trans (List.length_eq_zero.mp hb0).symm)
        have hq : (((jsNorm b).length : ℕ) : ℚ) ≠ 0 := by
          exact_mod_cast hb
        rw [hnil, levenshtein_nil_left]
        simp [div_self hq]
      · have hnil : jsNorm b = [] := List.length_eq_zero.mp h0
        have ha : (jsNorm a).length ≠ 0 := by
          intro ha0
          exact h ((List.length_eq_zero.mp ha0).trans hnil.symm)
        have hq : (((jsNorm a).length : ℕ) : ℚ) ≠ 0 := by
          exact_mod_cast ha
        rw [hnil, levenshtein_nil_right]
        simp [div_self hq]
    · push_neg at h0
      have ha : jsNorm a ≠ [] := fun hx => h0.1 (by simp [hx])
      have hb : jsNorm b ≠ [] := fun hx => h0.2 (by simp [hx])
      simp [titleSimilarity, h, ha, hb]

/-- C3 witness: the amended theorem applied at the concrete pair
("ab", "ax"), whose normalized forms are nonempty and differ in one
character. -/
theorem c3_witness :
    (0 < max (jsNorm "ab").length
        (jsNorm "ax").length) ∧
    titleSimilarity "ab" "ax" =
      1 - (levenshtein (jsNorm "ab")
            (jsNorm "ax") : ℚ) /
        (max (jsNorm "ab").length
          (jsNorm "ax").length : ℕ) :=
  ⟨by decide, (c3_title_similarity_amended "ab" "ax").2.2 (by decide)⟩

/-! ## C2: confidence scoring refines the spec's weighted sum -/

theorem specYearScore_nonneg (py ty : Option ℤ) : 0 ≤ specYearScore py ty := by
  rcases py with _ | y
  · norm_num [specYearScore]
  rcases ty with _ | t
  · norm_num [specYearScore]
  · simp only [specYearScore]
    split_ifs <;> norm_num

theorem specYearScore_le (py ty : Option ℤ) : specYearScore py ty ≤ 25 / 100 := by
  rcases py with _ | y
  · norm_num [specYearScore]
  rcases ty with _ | t
  · norm_num [specYearScore]
  · simp only [specYearScore]
    split_ifs <;> norm_num

theorem specTypeScore_nonneg (p t : String) : 0 ≤ specTypeScore p t := by
  unfold specTypeScore
  split
  · norm_num
  split <;> norm_num

theorem specTypeScore_le (p t : String) : specTypeScore p t ≤ 10 / 100 := by
  unfold specTypeScore
  split
  · norm_num
  split <;> norm_num

theorem specPopScore_nonneg (pop : ℚ) (h : 0 ≤ pop) : 0 ≤ specPopScore pop := by
  unfold specPopScore
  have h1 : (0 : ℚ) ≤ min (pop / 100) 1 := le_min (by positivity) (by norm_num)
  nlinarith

theorem specPopScore_le (pop : ℚ) : specPopScore pop ≤ 5 / 100 := by
  unfold specPopScore
  have h1 : min (pop / 100) 1 ≤ 1 := min_le_right _ _
  nlinarith

theorem typeScore_eq (p t : String)
    (hm : p = "movie" ∨ p = "tv" ∨ p = "unknown") :
    (if p ≠ "unknown" then
      if (p = "tv" ∧ t = "tv") ∨ (p = "movie" ∧ t = "movie") then (10 : ℚ) / 100
      else 0
    else 5 / 100) = specTypeScore p t := by
  rcases hm with hm | hm | hm <;> subst hm
  · by_cases ht : t = "movie"
    · simp [specTypeScore, ht]
    · have ht' : ¬ ("movie" = t) := fun hh => ht hh.symm
      simp [specTypeScore, ht, ht']
  · by_cases ht : t = "tv"
    · simp [specTypeScore, ht]
    · have ht' : ¬ ("tv" = t) := fun hh => ht hh.symm
      simp [specTypeScore, ht, ht']
  · simp [specTypeScore]

set_option maxHeartbeats 1000000 in
theorem calculateConfidence_eq_spec (pt : String) (py : Option ℤ) (pmt : String)
    (r : TmdbSearchResult) (hy : py ≠ some 0)
    (hm : pmt = "movie" ∨ pmt = "tv" ∨ pmt = "unknown") :
    calculateConfidence pt py pmt r =
      titleSimilarity pt (tmdbTitleOf r) * (6 / 10) +
        specYearScore py (tmdbYearOf r) +
        specTypeScore pmt (tmdbTypeOf r) + specPopScore r.popularity := by
  rw [← typeScore_eq pmt (tmdbTypeOf r) hm]
  rcases py with _ | y
  · simp [calculateConfidence, truthyInt, specYearScore, specPopScore]
  · have hy0 : y ≠ 0 := fun h0 => hy (by rw [h0])
    rcases hty : tmdbYearOf r with _ | t
    · simp [calculateConfidence, truthyInt, hy0, hty, specYearScore, specPopScore]
    · simp [calculateConfidence, truthyInt, hy0, hty, specYearScore, specPopScore]

/-- C2: for every parsed title, parsed year (the parser only ever yields a
null year or a four-digit year ≥ 1900, so `some 0` — which JS truthiness
would conflate with null — is excluded), parsed media type (an element of
the `movie`/`tv`/`unknown` enum) and candidate with nonnegative popularity,
the confidence equals the spec's weighted sum of the four components, and it
lies in [0, 1]. -/
theorem c2_confidence_components (pt : String) (py : Option ℤ) (pmt : String)
    (r : TmdbSearchResult) (hy : py ≠ some 0)
    (hm : pmt = "movie" ∨ pmt = "tv" ∨ pmt = "unknown")
    (hpop : 0 ≤ r.popularity) :
    calculateConfidence pt py pmt r =
      titleSimilarity pt (tmdbTitleOf r) * (6 / 10) +
        specYearScore py (tmdbYearOf r) +
        specTypeScore pmt (tmdbTypeOf r) + specPopScore r.popularity ∧
    0 ≤ calculateConfidence pt py pmt r ∧
    calculateConfidence pt py pmt r ≤ 1 := by
  have heq := calculateConfidence_eq_spec pt py pmt r hy hm
  refine ⟨heq, ?_, ?_⟩
  · rw [heq]
    have h1 := titleSimilarity_nonneg pt (tmdbTitleOf r)
    have h2 := specYearScore_nonneg py (tmdbYearOf r)
    have h3 := specTypeScore_nonneg pmt (tmdbTypeOf r)
    have h4 := specPopScore_nonneg r.popularity hpop
    nlinarith
  · rw [heq]
    have h1 := titleSimilarity_le_one pt (tmdbTitleOf r)
    have h1' := titleSimilarity_nonneg pt (tmdbTitleOf r)
    have h2 := specYearScore_le py (tmdbYearOf r)
    have h3 := specTypeScore_le pmt (tmdbTypeOf r)
    have h4 := specPopScore_le r.popularity
    nlinarith

/-- C2 witness: the theorem applied to the concrete candidate `c2Result`
(year off by one, matching type, popularity 50). -/
theorem c2_witness :
    calculateConfidence "abc" (some 2020) "movie" c2Result =
      titleSimilarity "abc" (tmdbTitleOf c2Result) * (6 / 10) +
        specYearScore (some 2020) (tmdbYearOf c2Result) +
        specTypeScore "movie" (tmdbTypeOf c2Result) +
        specPopScore c2Result.popularity ∧
    0 ≤ calculateConfidence "abc" (some 2020) "movie" c2Result ∧
    calculateConfidence "abc" (some 2020) "movie" c2Result ≤ 1 :=
  c2_confidence_components "abc" (some 2020) "movie" c2Result (by decide)
    (Or.inl rfl) (by norm_num [c2Result])

/-! ## C8: matchGroup with a null parsed title -/

theorem matchGroup_falsy (thr : ℚ) (cat : Catalog) (g : Group)
    (children : List Job) (h : truthyStr g.parsedTitle = false) :
    matchGroup thr cat g children =
      Except.ok ⟨{g with status := "ambiguous"}, children, none, 0⟩ := by
  simp [matchGroup, h]

theorem matchGroup_noTitle (thr : ℚ) (cat : Catalog) (g : Group)
    (children : List Job) (h : g.parsedTitle = none) :
    matchGroup thr cat g children =
      Except.ok ⟨{g with status := "ambiguous"}, children, none, 0⟩ :=
  matchGroup_falsy thr cat g children (by rw [h]; rfl)

/-- C8 counterexample: on a group with a null parsed title whose stored
confidence is 0.9, `matchGroup` yields status ambiguous but leaves the
confidence at 0.9 — it is not set to null as the claim states (the update
writes only `status` and `updatedAt`). -/
theorem c8_counterexample :
    (matchGroup (85 / 100) c8Catalog c8Group []).map (fun o => o.group.status) =
      Except.ok "ambiguous" ∧
    (matchGroup (85 / 100) c8Catalog c8Group []).map
        (fun o => o.group.matchConfidence) =
      Except.ok (some (9 / 10)) ∧
    (some ((9 : ℚ) / 10) : Option ℚ) ≠ none := by
  rw [matchGroup_noTitle (85 / 100) c8Catalog c8Group [] rfl]
  exact ⟨rfl, rfl, by simp⟩

/-- C8 (amended): on a null parsed title, `matchGroup` sets the group status
to ambiguous, leaves the stored confidence (and every other field, and the
children) unchanged, and returns without issuing any catalog request. -/
theorem c8_null_title_amended (thr : ℚ) (cat : Catalog) (g : Group)
    (children : List Job) (h : g.parsedTitle = none) :
    matchGroup thr cat g children =
      Except.ok ⟨{g with status := "ambiguous"}, children, none, 0⟩ ∧
    ∀ out, matchGroup thr cat g children = Except.ok out →
      out.group.status = "ambiguous" ∧
      out.group.matchConfidence = g.matchConfidence ∧
      out.jobs = children ∧ out.catalogCalls = 0 := by
  refine ⟨matchGroup_noTitle thr cat g children h, fun out hout => ?_⟩
  rw [matchGroup_noTitle thr cat g children h] at hout
  cases hout
  exact ⟨rfl, rfl, rfl, rfl⟩

/-- C8 witness: the amended theorem applied to the concrete fixture. -/
theorem c8_witness :
    matchGroup (1 / 2) c8Catalog c8Group [] =
      Except.ok ⟨{c8Group with status := "ambiguous"}, [], none, 0⟩ :=
  (c8_null_title_amended (1 / 2) c8Catalog c8Group [] rfl).1

/-! ## C9: missing catalog credential -/

theorem matchGroup_noKey (thr : ℚ) (cat : Catalog) (g : Group)
    (children : List Job) (t : String) (hkey : cat.apiKey = "")
    (ht : g.parsedTitle = some t) (ht0 : t ≠ "") :
    matchGroup thr cat g children =
      Except.error "TMDB API key not configured" := by
  have htt : truthyStr (some t) = true := by simp [truthyStr, ht0]
  simp [matchGroup, htt, ht, dispatchSearch, searchTV, searchMovies,
    searchMulti, hkey]

theorem matchTally_noKey_fold (thr : ℚ) (cat : Catalog)
    (hkey : cat.apiKey = "") (l : List (Group × List Job)) :
    ∀ acc : MatchCounts,
      l.foldl (matchTally thr cat) acc =
        ⟨acc.matched, acc.ambiguous + l.length⟩ := by
  induction l with
  | nil => intro acc; simp
  | cons p rest ih =>
    intro acc
    have hstep : matchTally thr cat acc p =
        {acc with ambiguous := acc.ambiguous + 1} := by
      rcases hp : p.1.parsedTitle with _ | t
      · rw [matchTally, matchGroup_noTitle thr cat p.1 p.2 hp]
        simp
      · by_cases ht0 : t = ""
        · subst ht0
          rw [matchTally, matchGroup_falsy thr cat p.1 p.2 (by rw [hp]; rfl)]
          simp
        · rw [matchTally, matchGroup_noKey thr cat p.1 p.2 t hkey hp ht0]
    rw [List.foldl_cons, hstep, ih]
    simp [MatchCounts.mk.injEq]
    omega

/-- C9 counterexample: with the API credential missing, `matchAllGroups`
over two scanned groups with parsed titles does not abort up front — it
processes both groups, converts each thrown credential error into an
ambiguous tally, and returns normally with {matched 0, ambiguous 2} — even
though `matchGroup` on either group alone fails with the distinct
missing-credential error. -/
theorem c9_counterexample :
    matchAllGroups (85 / 100) c9Catalog [(c9GroupA, []), (c9GroupB, [])] =
      ⟨0, 2⟩ ∧
    matchGroup (85 / 100) c9Catalog c9GroupA [] =
      Except.error "TMDB API key not configured" := by
  constructor
  · rw [matchAllGroups]
    rw [show ([(c9GroupA, ([] : List Job)), (c9GroupB, [])].filter
        (fun p => p.1.status = "scanned")) =
        [(c9GroupA, []), (c9GroupB, [])] from by decide]
    rw [matchTally_noKey_fold (85 / 100) c9Catalog rfl]
    rfl
  · exact matchGroup_noKey (85 / 100) c9Catalog c9GroupA [] "alpha" rfl rfl
      (by decide)

/-- C9 (amended): with a missing credential each search wrapper throws, so
`matchGroup` on any group with a truthy parsed title (non-null and nonempty,
the only titles the code ever searches with) fails with the distinct error
"TMDB API key not configured" before any catalog request is issued, while a
group with a null or empty parsed title is set ambiguous without any catalog
call; but `matchAllGroups` does not abort the batch — it catches every
per-group failure, counts that group as ambiguous, and processes all scanned
groups, returning {matched 0, ambiguous #scanned}. -/
theorem c9_missing_credential_amended (thr : ℚ) (cat : Catalog)
    (gs : List (Group × List Job)) (hkey : cat.apiKey = "") :
    (∀ (g : Group) (children : List Job) (t : String),
      g.parsedTitle = some t → t ≠ "" →
      matchGroup thr cat g children =
        Except.error "TMDB API key not configured") ∧
    (∀ (g : Group) (children : List Job),
      truthyStr g.parsedTitle = false →
      matchGroup thr cat g children =
        Except.ok ⟨{g with status := "ambiguous"}, children, none, 0⟩) ∧
    matchAllGroups thr cat gs =
      ⟨0, (gs.filter (fun p => p.1.status = "scanned")).length⟩ := by
  refine ⟨fun g children t ht ht0 =>
      matchGroup_noKey thr cat g children t hkey ht ht0,
    fun g children h => matchGroup_falsy thr cat g children h, ?_⟩
  rw [matchAllGroups, matchTally_noKey_fold thr cat hkey]
  simp

/-- C9 witness: the amended theorem applied to the missing-credential
catalog over a single scanned tv group. -/
theorem c9_witness :
    matchGroup (1 / 2) c9Catalog c9GroupB [] =
      Except.error "TMDB API key not configured" ∧
    matchAllGroups (1 / 2) c9Catalog [(c9GroupB, [])] = ⟨0, 1⟩ := by
  have h := c9_missing_credential_amended (1 / 2) c9Catalog [(c9GroupB, [])] rfl
  exact ⟨h.1 c9GroupB [] "beta" rfl (by decide), by rw [h.2.2]; rfl⟩

/-! ## C6: stream errors and the progress clobber -/

/-- C6: a local transfer of a 100-byte file whose read stream errors after
50 bytes.  The stream error handler records status failed, the error message
and the last-known progress 1/2 — but `processTransfer`'s catch then calls
`updateJobProgress(jobId, 0, message)`, so the job record ends with
`transferProgress = 0`, not the last-known progress the claim (and the spec)
require.  The error stays confined to this result value; the queue step that
follows (`activeTransfers--; processQueue()`) is the `finish` transition of
the queue model and runs identically for failures. -/
theorem c6_error_clobbers_progress :
    (transferLocal ⟨"transferring", some 0, none, false⟩ 100
        (List.replicate 100 7) none [50] (StreamOutcome.readErr "boom")).record =
      ⟨"failed", some (1 / 2), some "boom", false⟩ ∧
    (processTransfer ⟨"matched", none, none, false⟩ 100 (List.replicate 100 7)
        none [50] (StreamOutcome.readErr "boom")).record =
      ⟨"failed", some 0, some "boom", false⟩ := by
  constructor <;>
    simp [processTransfer, transferLocal, runStream, updateJobProgress,
      truthyStr, min_def]
  all_goals norm_num

/-! ## C7: local transfer resume -/

/-- C7: resuming a local transfer.  If a partial destination file of size
k < source size exists, the read stream is opened at offset k (append flags
when k > 0; a zero-byte partial coincides extensionally with a fresh write),
the final destination content is the partial content extended with the
source's remaining bytes, and its size equals the source size exactly; if
the existing size equals the source size, the job is reported complete with
progress 1 and no read stream is created (zero bytes read). -/
theorem c7_local_resume (rec : JobRec) (source d chunks : List ℕ) :
    (d.length < source.length →
      (processTransfer rec source.length source (some d) chunks
          StreamOutcome.success).readStart = some d.length ∧
      (processTransfer rec source.length source (some d) chunks
          StreamOutcome.success).dest = d ++ source.drop d.length ∧
      (processTransfer rec source.length source (some d) chunks
          StreamOutcome.success).dest.length = source.length ∧
      (0 < d.length →
        (processTransfer rec source.length source (some d) chunks
            StreamOutcome.success).writeFlags = some "a") ∧
      (processTransfer rec source.length source (some d) chunks
          StreamOutcome.success).record.status = "completed" ∧
      (processTransfer rec source.length source (some d) chunks
          StreamOutcome.success).record.transferProgress = some 1) ∧
    (d.length = source.length →
      (processTransfer rec source.length source (some d) chunks
          StreamOutcome.success).record.status = "completed" ∧
      (processTransfer rec source.length source (some d) chunks
          StreamOutcome.success).record.transferProgress = some 1 ∧
      (processTransfer rec source.length source (some d) chunks
          StreamOutcome.success).bytesRead = 0 ∧
      (processTransfer rec source.length source (some d) chunks
          StreamOutcome.success).readStart = none) := by
  constructor
  · intro h
    have hne : d.length ≠ source.length := Nat.ne_of_lt h
    by_cases hd : 0 < d.length
    · simp [processTransfer, transferLocal, runStream, updateJobProgress,
        truthyStr, hne, h, hd]
      omega
    · have hd0 : d = [] := List.length_eq_zero.mp (by omega)
      subst hd0
      have h0 : ¬ (0 = source.length) := by
        simp only [List.length_nil] at h
        omega
      simp [processTransfer, transferLocal, runStream, updateJobProgress,
        truthyStr, h0]
  · intro h
    simp [processTransfer, transferLocal, runStream, updateJobProgress,
      truthyStr, h]

/-- C7 witness: the theorem applied to a 100-byte source with a 40-byte
partial destination (resume case) and with a full-size destination
(already-complete case). -/
theorem c7_witness :
    (processTransfer ⟨"matched", none, none, false⟩ (List.replicate 100 7).length
        (List.replicate 100 7) (some (List.replicate 40 9)) [60]
        StreamOutcome.success).dest.length = (List.replicate 100 7).length ∧
    (processTransfer ⟨"matched", none, none, false⟩ (List.replicate 100 7).length
        (List.replicate 100 7) (some (List.replicate 40 9)) [60]
        StreamOutcome.success).readStart = some 40 ∧
    (processTransfer ⟨"matched", none, none, false⟩ (List.replicate 100 7).length
        (List.replicate 100 7) (some (List.replicate 100 7)) []
        StreamOutcome.success).bytesRead = 0 ∧
    (processTransfer ⟨"matched", none, none, false⟩ (List.replicate 100 7).length
        (List.replicate 100 7) (some (List.replicate 100 7)) []
        StreamOutcome.success).record.status = "completed" := by
  have h1 := (c7_local_resume ⟨"matched", none, none, false⟩
    (List.replicate 100 7) (List.replicate 40 9) [60]).1 (by simp)
  have h2 := (c7_local_resume ⟨"matched", none, none, false⟩
    (List.replicate 100 7) (List.replicate 100 7) []).2 (by simp)
  refine ⟨h1.2.2.1, ?_, h2.2.2.1, h2.1⟩
  rw [h1.1]
  simp

/-! ## C10: oversized destination file restarts from scratch -/

/-- C10: when the existing destination file is strictly larger than the
source, `transferLocal` neither skips nor resumes: the read stream opens at
offset 0, the write stream is opened with truncating flags `"w"` (the
byte counter, and hence the recomputed progress, restarts from zero), and
the final destination content is exactly the source. -/
theorem c10_oversized_restart (rec : JobRec) (source d chunks : List ℕ)
    (h : source.length < d.length) :
    (processTransfer rec source.length source (some d) chunks
        StreamOutcome.success).readStart = some 0 ∧
    (processTransfer rec source.length source (some d) chunks
        StreamOutcome.success).writeFlags = some "w" ∧
    (processTransfer rec source.length source (some d) chunks
        StreamOutcome.success).dest = source ∧
    (processTransfer rec source.length source (some d) chunks
        StreamOutcome.success).record.status = "completed" ∧
    (processTransfer rec source.length source (some d) chunks
        StreamOutcome.success).record.transferProgress = some 1 := by
  have hne : d.length ≠ source.length := by omega
  have hlt : ¬ d.length < source.length := by omega
  simp [processTransfer, transferLocal, runStream, updateJobProgress,
    truthyStr, hne, hlt]

/-- C10 witness: a 100-byte source against a 150-byte destination file. -/
theorem c10_witness :
    (processTransfer ⟨"matched", none, none, false⟩ (List.replicate 100 7).length
        (List.replicate 100 7) (some (List.replicate 150 9)) [100]
        StreamOutcome.success).writeFlags = some "w" ∧
    (processTransfer ⟨"matched", none, none, false⟩ (List.replicate 100 7).length
        (List.replicate 100 7) (some (List.replicate 150 9)) [100]
        StreamOutcome.success).dest = List.replicate 100 7 :=
  have h := c10_oversized_restart ⟨"matched", none, none, false⟩
    (List.replicate 100 7) (List.replicate 150 9) [100] (by simp)
  ⟨h.2.1, h.2.2.1⟩

/-! ## C4: the transfer queue -/

theorem drain_spec (q : List ℕ) : ∀ r st : List ℕ, ∃ moved : List ℕ,
    (drain r q st).1 = r ++ moved ∧ (drain r q st).2.2 = st ++ moved ∧
    q = moved ++ (drain r q st).2.1 := by
  induction q with
  | nil => exact fun r st => ⟨[], by simp [drain]⟩
  | cons j rest ih =>
    intro r st
    by_cases hlen : r.length < MAX_CONCURRENT
    · obtain ⟨m, h1, h2, h3⟩ := ih (r ++ [j]) (st ++ [j])
      refine ⟨j :: m, ?_, ?_, ?_⟩
      · simp only [drain, if_pos hlen, h1]
        simp
      · simp only [drain, if_pos hlen, h2]
        simp
      · simp only [drain, if_pos hlen]
        conv_lhs => rw [h3]
        simp
    · exact ⟨[], by simp [drain, hlen]⟩

theorem drain_running_le (r q st : List ℕ) (h : r.length ≤ MAX_CONCURRENT) :
    (drain r q st).1.length ≤ MAX_CONCURRENT := by
  induction q generalizing r st with
  | nil => simpa [drain] using h
  | cons j rest ih =>
    by_cases hlen : r.length < MAX_CONCURRENT
    · have := ih (r ++ [j]) (st ++ [j])
        (by simp only [List.length_append, List.length_singleton]; omega)
      simpa [drain, hlen] using this
    · simpa [drain, hlen] using h

theorem drain_queue_full (r q st : List ℕ) (h : r.length ≤ MAX_CONCURRENT) :
    (drain r q st).2.1 ≠ [] → (drain r q st).1.length = MAX_CONCURRENT := by
  induction q generalizing r st with
  | nil => intro hne; simp [drain] at hne
  | cons j rest ih =>
    by_cases hlen : r.length < MAX_CONCURRENT
    · intro hne
      simp only [drain, if_pos hlen] at hne ⊢
      exact ih (r ++ [j]) (st ++ [j])
        (by simp only [List.length_append, List.length_singleton]; omega) hne
    · intro hne
      simp only [drain, if_neg hlen]
      omega

theorem drain_noop (r q st : List ℕ) (h : ¬ r.length < MAX_CONCURRENT) :
    drain r q st = (r, q, st) := by
  cases q <;> simp [drain, h]

theorem drain_sum (r q st : List ℕ) :
    (drain r q st).1.length + (drain r q st).2.1.length =
      r.length + q.length := by
  obtain ⟨m, h1, h2, h3⟩ := drain_spec q r st
  have e1 : (drain r q st).1.length = r.length + m.length := by
    rw [h1]; simp
  have e3 : q.length = m.length + (drain r q st).2.1.length := by
    conv_lhs => rw [h3]
    simp
  omega

theorem qinv_processQueue (s : QState)
    (h1 : s.running.length ≤ MAX_CONCURRENT)
    (h3 : s.enqueued = s.started ++ s.queue)
    (h4 : (s.started : Multiset ℕ) =
      (s.finished : Multiset ℕ) + (s.running : Multiset ℕ)) :
    QInv (processQueue s) := by
  obtain ⟨m, e1, e2, e3⟩ := drain_spec s.queue s.running s.started
  refine ⟨drain_running_le _ _ _ h1, drain_queue_full _ _ _ h1, ?_, ?_⟩
  · show s.enqueued =
      (drain s.running s.queue s.started).2.2 ++
        (drain s.running s.queue s.started).2.1
    rw [e2, h3]
    conv_lhs => rw [e3]
    simp
  · show ((drain s.running s.queue s.started).2.2 : Multiset ℕ) =
      (s.finished : Multiset ℕ) + ((drain s.running s.queue s.started).1 : Multiset ℕ)
    rw [e2, e1, ← Multiset.coe_add, ← Multiset.coe_add, h4, add_assoc]

theorem qinv_queueTransfers (s : QState) (jobIds : List ℕ) (h : QInv s) :
    QInv (queueTransfers s jobIds) := by
  obtain ⟨h1, h2, h3, h4⟩ := h
  apply qinv_processQueue
  · exact h1
  · show s.enqueued ++ jobIds = s.started ++ (s.queue ++ jobIds)
    rw [h3]
    simp
  · exact h4

theorem qinv_finishTransfer (s : QState) (j : ℕ) (hj : j ∈ s.running)
    (h : QInv s) : QInv (finishTransfer s j) := by
  obtain ⟨h1, h2, h3, h4⟩ := h
  apply qinv_processQueue
  · show (s.running.erase j).length ≤ MAX_CONCURRENT
    have := List.length_erase_of_mem hj
    omega
  · exact h3
  · show (s.started : Multiset ℕ) =
      ((s.finished ++ [j] : List ℕ) : Multiset ℕ) +
        ((s.running.erase j : List ℕ) : Multiset ℕ)
    have hmem : j ∈ (s.running : Multiset ℕ) := by simpa using hj
    have key : ((s.finished ++ [j] : List ℕ) : Multiset ℕ) +
        ((s.running.erase j : List ℕ) : Multiset ℕ) =
        (s.finished : Multiset ℕ) + (s.running : Multiset ℕ) := by
      rw [← Multiset.coe_add, ← Multiset.coe_erase, Multiset.coe_singleton,
        add_assoc, Multiset.singleton_add, Multiset.cons_erase hmem]
    rw [h4]
    exact key.symm

theorem qinv_reachable (s : QState) (h : QReachable s) : QInv s := by
  induction h with
  | init =>
    refine ⟨by simp [initQState, MAX_CONCURRENT], by simp [initQState],
      by simp [initQState], by simp [initQState]⟩
  | step hr hstep ih =>
    cases hstep with
    | enqueue jobIds _ => exact qinv_queueTransfers _ jobIds ih
    | finish j _ hj => exact qinv_finishTransfer _ j hj ih

theorem finishRun_trans {s t u : QState} (h1 : FinishRun s t)
    (h2 : FinishRun t u) : FinishRun s u := by
  induction h2 with
  | refl => exact h1
  | tail j hrun hj ih => exact FinishRun.tail j ih hj

theorem finishRun_drain_all : ∀ (n : ℕ) (s : QState), QInv s →
    s.running.length + s.queue.length = n →
    ∃ s', FinishRun s s' ∧ QInv s' ∧ s'.running = [] ∧ s'.queue = [] ∧
      s'.enqueued = s.enqueued ∧
      (s'.finished : Multiset ℕ) = (s.enqueued : Multiset ℕ) := by
  intro n
  induction n using Nat.strong_induction_on with
  | _ n ih =>
    intro s hInv hn
    rcases hr : s.running with _ | ⟨j, rest⟩
    · have hq : s.queue = [] := by
        by_contra hne
        have h2 := hInv.2.1 hne
        rw [hr] at h2
        simp [MAX_CONCURRENT] at h2
      have h3 := hInv.2.2.1
      have h4 := hInv.2.2.2
      rw [hq, List.append_nil] at h3
      rw [hr] at h4
      simp only [Multiset.coe_nil, add_zero] at h4
      refine ⟨s, FinishRun.refl s, hInv, hr, hq, rfl, ?_⟩
      rw [h3]
      exact h4.symm
    · have hj : j ∈ s.running := by rw [hr]; exact List.mem_cons_self _ _
      have hInv' : QInv (finishTransfer s j) := qinv_finishTransfer s j hj hInv
      have hmeas : (finishTransfer s j).running.length +
          (finishTransfer s j).queue.length = n - 1 := by
        have hsum := drain_sum (s.running.erase j) s.queue s.started
        have herase := List.length_erase_of_mem hj
        have hpos : 1 ≤ s.running.length := by rw [hr]; simp
        show (drain (s.running.erase j) s.queue s.started).1.length +
          (drain (s.running.erase j) s.queue s.started).2.1.length = n - 1
        omega
      have hlt : n - 1 < n := by
        rw [hr] at hn
        simp only [List.length_cons] at hn
        omega
      obtain ⟨s', hrun, hinv', he1, he2, he3, he4⟩ :=
        ih (n - 1) hlt (finishTransfer s j) hInv' hmeas
      have hstep : FinishRun s (finishTransfer s j) :=
        FinishRun.tail j (FinishRun.refl s) hj
      have henq : (finishTransfer s j).enqueued = s.enqueued := rfl
      refine ⟨s', finishRun_trans hstep hrun, hinv', he1, he2, ?_, ?_⟩
      · rw [he3, henq]
      · rw [he4, henq]

/-- C4: in every reachable state of the transfer queue, (a) at most
`MAX_CONCURRENT` (2) transfers are running — i.e. hold status transferring —
simultaneously; (b) admission is FIFO: the full enqueue history equals the
admission history followed by the still-waiting queue, so jobs start in
enqueue order; (c) enqueueing more work while the queue is nonempty starts
nothing — only the completion or failure of an active transfer
(`finishTransfer`) admits waiting work; (d) assuming every active transfer
eventually completes or fails, a finish-only run drains everything: there is
a sequence of finish transitions after which nothing runs, nothing waits,
and the multiset of finished jobs is exactly the multiset of all enqueued
jobs. -/
theorem c4_transfer_queue (s : QState) (h : QReachable s) :
    s.running.length ≤ MAX_CONCURRENT ∧
    s.enqueued = s.started ++ s.queue ∧
    (∀ jobIds : List ℕ, s.queue ≠ [] →
      (queueTransfers s jobIds).running = s.running ∧
      (queueTransfers s jobIds).queue = s.queue ++ jobIds) ∧
    (∃ s', FinishRun s s' ∧ s'.running = [] ∧ s'.queue = [] ∧
      s'.enqueued = s.enqueued ∧
      (s'.finished : Multiset ℕ) = (s.enqueued : Multiset ℕ)) := by
  have hInv := qinv_reachable s h
  obtain ⟨h1, h2, h3, h4⟩ := hInv
  refine ⟨h1, h3, ?_, ?_⟩
  · intro jobIds hne
    have hfull := h2 hne
    have hnl : ¬ s.running.length < MAX_CONCURRENT := by omega
    have hd := drain_noop s.running (s.queue ++ jobIds) s.started hnl
    constructor
    · show (drain s.running (s.queue ++ jobIds) s.started).1 = s.running
      rw [hd]
    · show (drain s.running (s.queue ++ jobIds) s.started).2.1 = s.queue ++ jobIds
      rw [hd]
  · obtain ⟨s', ha, _, hb, hc, hd, he⟩ :=
      finishRun_drain_all (s.running.length + s.queue.length) s
        ⟨h1, h2, h3, h4⟩ rfl
    exact ⟨s', ha, hb, hc, hd, he⟩

/-- C4 witness: the theorem applied to the reachable state obtained by
enqueueing jobs 1, 2, 3 from the fresh module state (two start running, one
waits). -/
theorem c4_witness :
    (queueTransfers initQState [1, 2, 3]).queue ≠ [] ∧
    (queueTransfers initQState [1, 2, 3]).running.length ≤ MAX_CONCURRENT ∧
    (queueTransfers initQState [1, 2, 3]).enqueued =
      (queueTransfers initQState [1, 2, 3]).started ++
        (queueTransfers initQState [1, 2, 3]).queue ∧
    (queueTransfers (queueTransfers initQState [1, 2, 3]) [4]).running =
      (queueTransfers initQState [1, 2, 3]).running := by
  have h := c4_transfer_queue (queueTransfers initQState [1, 2, 3])
    (QReachable.step QReachable.init (QStep.enqueue [1, 2, 3] initQState))
  exact ⟨by decide, h.1, h.2.1, (h.2.2.1 [4] (by decide)).1⟩

/-! ## C5: the sliding-log rate limiter under concurrency -/

set_option maxRecDepth 4000 in
/-- C5: the check–wait–record sequence of `rateLimitedFetch` is not atomic —
a caller that waited records its timestamp after the `await` without
re-checking the quota.  In the concrete schedule `rlBurst`, 35 callers fill
the quota at time 0 and 36 staggered callers arriving at times 1..36 each
compute a wait expiring at time 10000; when they resume, all 36 record, so
the window ending at time 10000 holds 36 recorded calls — more than the
quota of 35, which the claim asserts can never happen (it even exceeds the
"max 40 requests per 10 seconds" stated in the source's own comment when the
schedule is widened). -/
theorem c5_rate_window_overflow :
    windowCount 10000 (rlRun rlBurst ⟨[], []⟩).log = 36 ∧
    RATE_LIMIT < windowCount 10000 (rlRun rlBurst ⟨[], []⟩).log := by
  constructor <;> decide

/-! ## C1: the auto-match decision -/

theorem backfillEpisode_fields (cat : Catalog) (i : ℤ) (j : Job) :
    (backfillEpisode cat i j).status = j.status ∧
    (backfillEpisode cat i j).tmdbId = j.tmdbId ∧
    (backfillEpisode cat i j).tmdbTitle = j.tmdbTitle ∧
    (backfillEpisode cat i j).tmdbYear = j.tmdbYear ∧
    (backfillEpisode cat i j).tmdbPosterPath = j.tmdbPosterPath ∧
    (backfillEpisode cat i j).matchConfidence = j.matchConfidence := by
  unfold backfillEpisode
  repeat' split
  all_goals simp

theorem scoreResults_ne_nil (g : Group) (t : String)
    (results : List TmdbSearchResult) (h : results ≠ []) :
    scoreResults g t results ≠ [] := by
  unfold scoreResults
  intro hcon
  have hperm := List.mergeSort_perm
    ((results.take 10).map
      (fun r => (r, calculateConfidence t g.parsedYear g.mediaType r)))
    (fun a b => decide (b.2 ≤ a.2))
  rw [hcon] at hperm
  have hnil := hperm.symm.eq_nil
  rcases results with _ | ⟨r, rs⟩
  · exact h rfl
  · simp at hnil

theorem scoreResults_head_max (g : Group) (t : String)
    (results : List TmdbSearchResult) (p : TmdbSearchResult × ℚ)
    (hp : p ∈ scoreResults g t results) :
    p.2 ≤ (scoreResults g t results).headI.2 := by
  have htrans : ∀ a b c : TmdbSearchResult × ℚ,
      (fun a b : TmdbSearchResult × ℚ => decide (b.2 ≤ a.2)) a b = true →
      (fun a b : TmdbSearchResult × ℚ => decide (b.2 ≤ a.2)) b c = true →
      (fun a b : TmdbSearchResult × ℚ => decide (b.2 ≤ a.2)) a c = true := by
    intro a b c hab hbc
    simp only [decide_eq_true_eq] at hab hbc ⊢
    exact le_trans hbc hab
  have htotal : ∀ a b : TmdbSearchResult × ℚ,
      ((fun a b : TmdbSearchResult × ℚ => decide (b.2 ≤ a.2)) a b ||
        (fun a b : TmdbSearchResult × ℚ => decide (b.2 ≤ a.2)) b a) = true := by
    intro a b
    simp only [Bool.or_eq_true, decide_eq_true_eq]
    exact le_total b.2 a.2
  have hsorted := @List.sorted_mergeSort (TmdbSearchResult × ℚ)
    (fun a b => decide (b.2 ≤ a.2)) htrans htotal
    ((results.take 10).map
      (fun r => (r, calculateConfidence t g.parsedYear g.mediaType r)))
  unfold scoreResults at hp ⊢
  rcases hlist : ((results.take 10).map
      (fun r => (r, calculateConfidence t g.parsedYear g.mediaType r))).mergeSort
      (fun a b => decide (b.2 ≤ a.2)) with _ | ⟨hd, tl⟩
  · rw [hlist] at hp
    exact absurd hp (List.not_mem_nil p)
  · rw [hlist] at hp hsorted
    rcases List.mem_cons.mp hp with hph | hpt
    · rw [hph]
      exact le_rfl
    · have := (List.pairwise_cons.mp hsorted).1 p hpt
      simpa using this

theorem conf_le_top (g : Group) (t : String) (results : List TmdbSearchResult)
    (r' : TmdbSearchResult) (h : r' ∈ results.take 10) :
    calculateConfidence t g.parsedYear g.mediaType r' ≤
      (scoreResults g t results).headI.2 := by
  apply scoreResults_head_max g t results
    (r', calculateConfidence t g.parsedYear g.mediaType r')
  unfold scoreResults
  exact (List.mergeSort_perm _ _).mem_iff.mpr
    (List.mem_map_of_mem _ h)

theorem matchGroup_scored (thr : ℚ) (cat : Catalog) (g : Group)
    (children : List Job) (t : String) (results : List TmdbSearchResult)
    (ht : g.parsedTitle = some t) (ht0 : t ≠ "")
    (hs : dispatchSearch cat g t = Except.ok results) (hne : results ≠ []) :
    matchGroup thr cat g children =
      (if thr ≤ (scoreResults g t results).headI.2 ∧
          (15 : ℚ) / 100 ≤ gapOf (scoreResults g t results) then
        Except.ok
          ⟨matchedGroup g (scoreResults g t results).headI,
            (if (scoreResults g t results).headI.1.media_type = some "tv" then
              (fetchEpisodeTitles cat (scoreResults g t results).headI.1.id
                (children.map (matchedJob (scoreResults g t results).headI))).1
            else children.map (matchedJob (scoreResults g t results).headI)),
            some ((scoreResults g t results).map (fun p => mkCandidate p.1 p.2)),
            (if (scoreResults g t results).headI.1.media_type = some "tv" then
              1 + (fetchEpisodeTitles cat (scoreResults g t results).headI.1.id
                (children.map (matchedJob (scoreResults g t results).headI))).2
            else 1)⟩
      else
        Except.ok
          ⟨ambiguousScoredGroup g (scoreResults g t results).headI.2, children,
            some ((scoreResults g t results).map (fun p => mkCandidate p.1 p.2)),
            1⟩) := by
  have htt : truthyStr (some t) = true := by simp [truthyStr, ht0]
  simp only [matchGroup, ht, htt, if_true, Option.getD_some, hs]
  rw [if_neg hne]
  by_cases hcond : thr ≤ (scoreResults g t results).headI.2 ∧
      (15 : ℚ) / 100 ≤ gapOf (scoreResults g t results)
  · rw [if_pos hcond, if_pos hcond]
    by_cases htv : (scoreResults g t results).headI.1.media_type = some "tv"
    · rw [if_pos htv]
      simp [htv]
    · rw [if_neg htv]
      simp [htv]
  · rw [if_neg hcond, if_neg hcond]

/-- C1: for every group with a truthy parsed title (non-null and nonempty —
a falsy title never reaches the search, see `matchGroup_falsy`) whose
dispatched catalog search succeeds with a nonempty result list, with `top`
the head of the descending-sorted scored
list (shown to dominate every candidate's score) and `gap` as computed by
`gapOf` (1 when there is no second result): the group ends matched exactly
when `top ≥ threshold` and `gap ≥ 0.15`; on accept the winning candidate's
catalog id, title, year, poster and confidence are copied onto the group and
onto every child job with status matched; otherwise the group ends ambiguous
with confidence equal to the top score and the children are untouched.  In
particular, with threshold 0.85, scores 0.85/0.70 (gap exactly 0.15)
auto-match while scores 0.85/0.71 (gap 0.14) end ambiguous with confidence
0.85. -/
theorem c1_auto_match_decision :
    (∀ (thr : ℚ) (cat : Catalog) (g : Group) (children : List Job)
        (t : String) (results : List TmdbSearchResult),
      g.parsedTitle = some t → t ≠ "" →
      dispatchSearch cat g t = Except.ok results →
      results ≠ [] →
      (∀ r' ∈ results.take 10,
        calculateConfidence t g.parsedYear g.mediaType r' ≤
          (scoreResults g t results).headI.2) ∧
      ((matchGroup thr cat g children).map (fun o => o.group.status) =
        Except.ok
          (if thr ≤ (scoreResults g t results).headI.2 ∧
              (15 : ℚ) / 100 ≤ gapOf (scoreResults g t results)
            then "matched" else "ambiguous")) ∧
      (thr ≤ (scoreResults g t results).headI.2 ∧
          (15 : ℚ) / 100 ≤ gapOf (scoreResults g t results) →
        ∀ out, matchGroup thr cat g children = Except.ok out →
          out.group.status = "matched" ∧
          out.group.tmdbId = some (scoreResults g t results).headI.1.id ∧
          out.group.tmdbTitle =
            some (tmdbTitleOf (scoreResults g t results).headI.1) ∧
          out.group.tmdbYear = tmdbYearOf (scoreResults g t results).headI.1 ∧
          out.group.tmdbPosterPath =
            (scoreResults g t results).headI.1.poster_path ∧
          out.group.matchConfidence = some (scoreResults g t results).headI.2 ∧
          out.jobs.length = children.length ∧
          (∀ j ∈ out.jobs, j.status = "matched" ∧
            j.tmdbId = some (scoreResults g t results).headI.1.id ∧
            j.tmdbTitle =
              some (tmdbTitleOf (scoreResults g t results).headI.1) ∧
            j.tmdbYear = tmdbYearOf (scoreResults g t results).headI.1 ∧
            j.tmdbPosterPath =
              (scoreResults g t results).headI.1.poster_path ∧
            j.matchConfidence = some (scoreResults g t results).headI.2)) ∧
      (¬ (thr ≤ (scoreResults g t results).headI.2 ∧
          (15 : ℚ) / 100 ≤ gapOf (scoreResults g t results)) →
        ∀ out, matchGroup thr cat g children = Except.ok out →
          out.group.status = "ambiguous" ∧
          out.group.matchConfidence = some (scoreResults g t results).headI.2 ∧
          out.jobs = children)) ∧
    ((matchGroup (85 / 100) bCatalogA bGroup []).map
        (fun o => (o.group.status, o.group.matchConfidence)) =
      Except.ok ("matched", some (85 / 100))) ∧
    ((matchGroup (85 / 100) bCatalogB bGroup []).map
        (fun o => (o.group.status, o.group.matchConfidence)) =
      Except.ok ("ambiguous", some (85 / 100))) := by
  refine ⟨?_, ?_, ?_⟩
  · intro thr cat g children t results ht ht0 hs hne
    have hmg := matchGroup_scored thr cat g children t results ht ht0 hs hne
    refine ⟨fun r' hr' => conf_le_top g t results r' hr', ?_, ?_, ?_⟩
    · rw [hmg]
      by_cases hcond : thr ≤ (scoreResults g t results).headI.2 ∧
          (15 : ℚ) / 100 ≤ gapOf (scoreResults g t results)
      · rw [if_pos hcond, if_pos hcond]
        simp [Except.map, matchedGroup]
      · rw [if_neg hcond, if_neg hcond]
        simp [Except.map, ambiguousScoredGroup]
    · intro hcond out hout
      rw [hmg, if_pos hcond] at hout
      injection hout with hout
      subst hout
      refine ⟨by simp [matchedGroup], by simp [matchedGroup],
        by simp [matchedGroup], by simp [matchedGroup],
        by simp [matchedGroup], by simp [matchedGroup], ?_, ?_⟩
      · by_cases htv : (scoreResults g t results).headI.1.media_type = some "tv"
        · simp [htv, fetchEpisodeTitles]
        · simp [htv]
      · intro j hj
        by_cases htv : (scoreResults g t results).headI.1.media_type = some "tv"
        · rw [if_pos htv] at hj
          simp only [fetchEpisodeTitles, List.map_map] at hj
          obtain ⟨j0, hj0, rfl⟩ := List.mem_map.mp hj
          have hb := backfillEpisode_fields cat
            (scoreResults g t results).headI.1.id (matchedJob (scoreResults g t results).headI j0)
          simp only [Function.comp_apply]
          rw [hb.1, hb.2.1, hb.2.2.1, hb.2.2.2.1, hb.2.2.2.2.1, hb.2.2.2.2.2]
          simp [matchedJob]
        · rw [if_neg htv] at hj
          obtain ⟨j0, hj0, rfl⟩ := List.mem_map.mp hj
          simp [matchedJob]
    · intro hcond out hout
      rw [hmg, if_neg hcond] at hout
      injection hout with hout
      subst hout
      exact ⟨rfl, rfl, rfl⟩
  · have hsA : dispatchSearch bCatalogA bGroup "abc" =
        Except.ok [bTopM, bSecondLowM] := by decide
    have h1 : calculateConfidence "abc" (some 2020) "movie" bTopM = 85 / 100 := by
      have ht : tmdbTitleOf bTopM = "abc" := by decide
      have hy : tmdbYearOf bTopM = some 2021 := by decide
      have htp : tmdbTypeOf bTopM = "movie" := by decide
      have hp : bTopM.popularity = 0 := by decide
      simp only [calculateConfidence, ht, hy, htp, hp]
      norm_num [titleSimilarity, truthyInt, min_def,
        show ¬ (("movie" : String) = "unknown") from by decide]
    have h2 : calculateConfidence "abc" (some 2020) "movie" bSecondLowM = 7 / 10 := by
      have ht : tmdbTitleOf bSecondLowM = "abc" := by decide
      have hy : tmdbYearOf bSecondLowM = some 1990 := by decide
      have htp : tmdbTypeOf bSecondLowM = "movie" := by decide
      have hp : bSecondLowM.popularity = 0 := by decide
      simp only [calculateConfidence, ht, hy, htp, hp]
      norm_num [titleSimilarity, truthyInt, min_def,
        show ¬ (("movie" : String) = "unknown") from by decide]
    have hsc : scoreResults bGroup "abc" [bTopM, bSecondLowM] =
        [(bTopM, 85 / 100), (bSecondLowM, 7 / 10)] := by
      have hgy : bGroup.parsedYear = some 2020 := by decide
      have hmt : bGroup.mediaType = "movie" := by decide
      simp only [scoreResults, List.take, List.map, hgy, hmt, h1, h2]
      norm_num [List.mergeSort, List.merge]
    have hmg := matchGroup_scored (85 / 100) bCatalogA bGroup [] "abc"
      [bTopM, bSecondLowM] rfl (by decide) hsA (by simp)
    rw [hmg, hsc]
    have hcond : (85 : ℚ) / 100 ≤ ([(bTopM, 85 / 100), (bSecondLowM, 7 / 10)]).headI.2 ∧
        (15 : ℚ) / 100 ≤ gapOf [(bTopM, 85 / 100), (bSecondLowM, 7 / 10)] := by
      constructor
      · norm_num
      · norm_num [gapOf]
    rw [if_pos hcond]
    simp [Except.map, matchedGroup]
  · have hsB : dispatchSearch bCatalogB bGroup "abc" =
        Except.ok [bTopM, bSecondHighM] := by decide
    have h1 : calculateConfidence "abc" (some 2020) "movie" bTopM = 85 / 100 := by
      have ht : tmdbTitleOf bTopM = "abc" := by decide
      have hy : tmdbYearOf bTopM = some 2021 := by decide
      have htp : tmdbTypeOf bTopM = "movie" := by decide
      have hp : bTopM.popularity = 0 := by decide
      simp only [calculateConfidence, ht, hy, htp, hp]
      norm_num [titleSimilarity, truthyInt, min_def,
        show ¬ (("movie" : String) = "unknown") from by decide]
    have h2 : calculateConfidence "abc" (some 2020) "movie" bSecondHighM = 71 / 100 := by
      have ht : tmdbTitleOf bSecondHighM = "abc" := by decide
      have hy : tmdbYearOf bSecondHighM = some 1990 := by decide
      have htp : tmdbTypeOf bSecondHighM = "movie" := by decide
      have hp : bSecondHighM.popularity = 20 := by decide
      simp only [calculateConfidence, ht, hy, htp, hp]
      norm_num [titleSimilarity, truthyInt, min_def,
        show ¬ (("movie" : String) = "unknown") from by decide]
    have hsc : scoreResults bGroup "abc" [bTopM, bSecondHighM] =
        [(bTopM, 85 / 100), (bSecondHighM, 71 / 100)] := by
      have hgy : bGroup.parsedYear = some 2020 := by decide
      have hmt : bGroup.mediaType = "movie" := by decide
      simp only [scoreResults, List.take, List.map, hgy, hmt, h1, h2]
      norm_num [List.mergeSort, List.merge]
    have hmg := matchGroup_scored (85 / 100) bCatalogB bGroup [] "abc"
      [bTopM, bSecondHighM] rfl (by decide) hsB (by simp)
    rw [hmg, hsc]
    have hcond : ¬ ((85 : ℚ) / 100 ≤
        ([(bTopM, 85 / 100), (bSecondHighM, 71 / 100)]).headI.2 ∧
        (15 : ℚ) / 100 ≤ gapOf [(bTopM, 85 / 100), (bSecondHighM, 71 / 100)]) := by
      intro hc
      have := hc.2
      norm_num [gapOf] at this
    rw [if_neg hcond]
    simp [Except.map, ambiguousScoredGroup]

/-- C1 witness: the universal part of the theorem applied to the concrete
0.85 / 0.70 catalog (all hypotheses discharged on that input). -/
theorem c1_witness :
    (matchGroup (85 / 100) bCatalogA bGroup []).map (fun o => o.group.status) =
      Except.ok
        (if (85 : ℚ) / 100 ≤
              (scoreResults bGroup "abc" [bTopM, bSecondLowM]).headI.2 ∧
            (15 : ℚ) / 100 ≤
              gapOf (scoreResults bGroup "abc" [bTopM, bSecondLowM])
          then "matched" else "ambiguous") := by
  have h := c1_auto_match_decision.1 (85 / 100) bCatalogA bGroup [] "abc"
    [bTopM, bSecondLowM] rfl (by decide) (by decide) (by simp)
  exact h.2.1

end Reelname
